import Mathlib

/-!
Shallow embedding of the contact-directory program (`src/main.py`): the
validated fields (`Name`, `Phone`, `Birthday`), the `Record` aggregate, the
`AddressBook` container, and the upcoming-birthday computation, together with
the fragment of `datetime.date` the program uses (`replace`, subtraction,
`weekday`, `strftime`/`strptime` with format `%d.%m.%Y`).

Machine conventions: Python exceptions become `Option`/`Except` results;
`date.today()` becomes an explicit `today` parameter; the insertion-ordered
`dict` backing `AddressBook` becomes an association list with unique keys.
-/

/-! ### The `datetime.date` fragment -/

/-- Gregorian leap-year rule used by `datetime`. -/
def isLeap (y : Nat) : Bool :=
  y % 4 == 0 && (y % 100 != 0 || y % 400 == 0)

/-- Length of month `m` of year `y` (`datetime`'s `_days_in_month`). -/
def daysInMonth (y m : Nat) : Nat :=
  if m = 2 then (if isLeap y then 29 else 28)
  else if m = 4 ∨ m = 6 ∨ m = 9 ∨ m = 11 then 30
  else 31

/-- A `datetime.date` value: year, month, day. -/
structure PyDate where
  year : Nat
  month : Nat
  day : Nat
deriving DecidableEq, Repr

/-- The validity check `datetime.date.__new__` performs (`MINYEAR = 1`,
`MAXYEAR = 9999`, day within the month). Constructing an invalid date in
Python raises `ValueError`. -/
def PyDate.valid (d : PyDate) : Bool :=
  decide (1 ≤ d.year) && decide (d.year ≤ 9999) &&
  decide (1 ≤ d.month) && decide (d.month ≤ 12) &&
  decide (1 ≤ d.day) && decide (d.day ≤ daysInMonth d.year d.month)

/-- `datetime`'s `_days_before_year`: days between 0001-01-01 and
January 1 of year `y`. -/
def daysBeforeYear (y : Nat) : Nat :=
  365 * (y - 1) + (y - 1) / 4 - (y - 1) / 100 + (y - 1) / 400

/-- `datetime`'s `_days_before_month`: days of year `y` before month `m`. -/
def daysBeforeMonth (y m : Nat) : Nat :=
  (List.range (m - 1)).foldl (fun a i => a + daysInMonth y (i + 1)) 0

/-- `date.toordinal()`: 0001-01-01 is ordinal 1. -/
def PyDate.toOrdinal (d : PyDate) : Nat :=
  daysBeforeYear d.year + daysBeforeMonth d.year d.month + d.day

/-- `date.weekday()`: Monday is 0, Sunday is 6 (0001-01-01 was a Monday). -/
def PyDate.weekday (d : PyDate) : Nat :=
  (d.toOrdinal + 6) % 7

/-- Python date comparison `<` (lexicographic on year, month, day). -/
def PyDate.lt (a b : PyDate) : Bool :=
  if a.year ≠ b.year then decide (a.year < b.year)
  else if a.month ≠ b.month then decide (a.month < b.month)
  else decide (a.day < b.day)

/-- `date.replace(year=y)`: keeps month and day, re-validates; `none` models
the `ValueError` Python raises when the resulting date is invalid (for
example February 29 of a non-leap year). -/
def PyDate.replaceYear (d : PyDate) (y : Nat) : Option PyDate :=
  let c : PyDate := ⟨y, d.month, d.day⟩
  if c.valid then some c else none

/-- The calendar successor of a date (used to model `date + timedelta(days=n)`
for the small non-negative shifts the program performs). -/
def PyDate.next (d : PyDate) : PyDate :=
  if d.day < daysInMonth d.year d.month then ⟨d.year, d.month, d.day + 1⟩
  else if d.month < 12 then ⟨d.year, d.month + 1, 1⟩
  else ⟨d.year + 1, 1, 1⟩

/-- `date + timedelta(days=n)` for `n ≥ 0`. -/
def PyDate.addDays (d : PyDate) : Nat → PyDate
  | 0 => d
  | n + 1 => (d.addDays n).next

/-! ### Rendering and parsing `%d.%m.%Y` -/

/-- The character of decimal digit `n % 10` (the zero-padded digit output of
`strftime`). -/
def digitChar10 (n : Nat) : Char :=
  match n % 10 with
  | 0 => '0' | 1 => '1' | 2 => '2' | 3 => '3' | 4 => '4'
  | 5 => '5' | 6 => '6' | 7 => '7' | 8 => '8' | _ => '9'

/-- Two-digit zero-padded rendering (`strftime` `%d`, `%m`). -/
def pad2 (n : Nat) : String :=
  String.mk [digitChar10 (n / 10), digitChar10 n]

/-- Four-digit zero-padded rendering (`strftime` `%Y`). -/
def pad4 (n : Nat) : String :=
  String.mk [digitChar10 (n / 1000), digitChar10 (n / 100), digitChar10 (n / 10), digitChar10 n]

/-- `d.strftime("%d.%m.%Y")`. -/
def renderDate (d : PyDate) : String :=
  pad2 d.day ++ "." ++ pad2 d.month ++ "." ++ pad4 d.year

/-- ASCII decimal digit (the `\d` atoms of `_strptime`'s regular expression,
applied to the `DD.MM.YYYY` inputs the specification quantifies over). -/
def isDig (c : Char) : Bool :=
  c == '0' || c == '1' || c == '2' || c == '3' || c == '4' ||
  c == '5' || c == '6' || c == '7' || c == '8' || c == '9'

/-- Numeric value of a digit string (`int()` applied to the matched group). -/
def digitsVal (l : List Char) : Nat :=
  l.foldl (fun a c => a * 10 + (c.toNat - 48)) 0

/-- Split a character list at every `'.'` (the literal separators of the
format `%d.%m.%Y`). -/
def splitDots : List Char → List (List Char)
  | [] => [[]]
  | c :: rest =>
    match splitDots rest with
    | [] => [[]]
    | g :: gs => if c = '.' then [] :: g :: gs else (c :: g) :: gs

/-- `_strptime`'s group for `%d`: one or two digits with value 1–31. -/
def dayPat (l : List Char) : Bool :=
  (l.length == 1 || l.length == 2) && l.all isDig &&
  decide (1 ≤ digitsVal l) && decide (digitsVal l ≤ 31)

/-- `_strptime`'s group for `%m`: one or two digits with value 1–12. -/
def monthPat (l : List Char) : Bool :=
  (l.length == 1 || l.length == 2) && l.all isDig &&
  decide (1 ≤ digitsVal l) && decide (digitsVal l ≤ 12)

/-- `_strptime`'s group for `%Y`: exactly four digits. -/
def yearPat (l : List Char) : Bool :=
  l.length == 4 && l.all isDig

/-- `datetime.strptime(s, "%d.%m.%Y").date()`: the regular-expression match
followed by `date` construction; `none` models the `ValueError` on failure. -/
def parseDate (s : String) : Option PyDate :=
  match splitDots s.data with
  | [ds, ms, ys] =>
    if dayPat ds && monthPat ms && yearPat ys then
      let c : PyDate := ⟨digitsVal ys, digitsVal ms, digitsVal ds⟩
      if c.valid then some c else none
    else none
  | _ => none

/-! ### Validated fields -/

/-- The `Name` field: a non-empty-after-strip string. -/
structure Name where
  value : String
deriving DecidableEq, Repr

/-- The `Phone` field: the stored raw string. -/
structure Phone where
  value : String
deriving DecidableEq, Repr

/-- Whitespace in the sense of Python's `str.strip()` (the ASCII fragment;
`strip` also removes further Unicode spaces, which no claim exercises). -/
def isSpaceChar (c : Char) : Bool :=
  c == ' ' || c == '\t' || c == '\n' || c == '\r' || c == '\x0b' || c == '\x0c'

/-- Python's `value.strip()`: whitespace removed from both ends. -/
def pyStrip (s : String) : String :=
  String.mk (((s.data.dropWhile isSpaceChar).reverse.dropWhile isSpaceChar).reverse)

/-- `Name.__init__`: rejects a value that is empty after `strip()`. -/
def nameOfString (s : String) : Option Name :=
  if pyStrip s == "" then none else some ⟨s⟩

/-- Python's `str.isdigit` on one character: true for characters with the
Unicode digit property.  That set contains the ASCII decimal digits and
further characters such as the Latin-1 superscript digits, which are modelled
here; the remaining Unicode digit characters behave like the superscripts and
are not needed below. -/
def pyIsDigitChar (c : Char) : Bool :=
  c.isDigit || c == '¹' || c == '²' || c == '³'

/-- Python's `str.isdigit`: non-empty and every character a Unicode digit. -/
def pyStrIsDigit (s : String) : Bool :=
  !(s == "") && s.data.all pyIsDigitChar

/-- `Phone.__init__`: `if not value.isdigit() or len(value) != 10: raise`. -/
def phoneOfString (s : String) : Option Phone :=
  if !pyStrIsDigit s || s.length ≠ 10 then none else some ⟨s⟩

/-- `Birthday.__init__`: parse with `strptime` and store the date. -/
def birthdayOfString (s : String) : Option PyDate :=
  parseDate s

/-- `Birthday.__str__` / `__repr__`: `strftime("%d.%m.%Y")`. -/
def birthdayStr (d : PyDate) : String :=
  renderDate d

/-- `Field.__str__` for `Phone` (renders the stored string as-is). -/
def phoneStr (p : Phone) : String :=
  p.value

/-! ### `Field.__eq__` (one value universe for all three subclasses) -/

/-- The primitive value held by a `Field`: a string (`Name`, `Phone`) or a
date (`Birthday`).  Python's `==` between a string and a date is `False`,
matching constructor-wise equality here. -/
inductive FieldVal where
  | str (s : String)
  | dt (d : PyDate)
deriving DecidableEq, Repr

/-- A `Field` instance together with its concrete subclass. -/
inductive PyField where
  | name (v : String)
  | phone (v : String)
  | birthday (v : PyDate)
deriving DecidableEq, Repr

/-- The `value` attribute of a field. -/
def PyField.value : PyField → FieldVal
  | .name v => .str v
  | .phone v => .str v
  | .birthday d => .dt d

/-- `Field.__eq__`: both operands are `Field` instances, so the method
compares `self.value == other.value` regardless of the concrete subclass. -/
def fieldEq (a b : PyField) : Bool :=
  a.value == b.value

/-! ### `Record` -/

/-- A contact: validated name, ordered phone list, optional birthday. -/
structure Record where
  name : Name
  phones : List Phone
  birthday : Option PyDate
deriving DecidableEq, Repr

/-- `Record.__init__(name)`: validates the name, starts with no phones and
no birthday. -/
def Record.ofName (s : String) : Option Record :=
  (nameOfString s).map fun n => ⟨n, [], none⟩

/-- `Record.add_phone`: validate and append; the `ValueError` of an invalid
phone is raised before the list is touched. -/
def Record.addPhone (r : Record) (s : String) : Except String Record :=
  match phoneOfString s with
  | some p => .ok { r with phones := r.phones ++ [p] }
  | none => .error "Phone number must consist of 10 digits."

/-- `Record.remove_phone`: keep the entries whose value differs. -/
def Record.removePhone (r : Record) (s : String) : Record :=
  { r with phones := r.phones.filter fun p => !(p.value == s) }

/-- `Record.edit_phone`: `Phone(old_phone)`, `list.index`, `Phone(new_phone)`
and the assignment all sit in one `try`, and every `ValueError` — a bad old
format, a missing entry, or a bad new format — is re-raised as
`"Old phone number not found."`. -/
def Record.editPhone (r : Record) (o n : String) : Except String Record :=
  match phoneOfString o with
  | none => .error "Old phone number not found."
  | some po =>
    match r.phones.findIdx? (fun p => p.value == po.value) with
    | none => .error "Old phone number not found."
    | some i =>
      match phoneOfString n with
      | none => .error "Old phone number not found."
      | some pn => .ok { r with phones := r.phones.set i pn }

/-- `Record.find_phone`: first entry with the given value, else `None`. -/
def Record.findPhone (r : Record) (s : String) : Option Phone :=
  r.phones.find? fun p => p.value == s

/-- `Record.add_birthday`: validate, then overwrite unconditionally. -/
def Record.addBirthday (r : Record) (s : String) : Except String Record :=
  match birthdayOfString s with
  | some d => .ok { r with birthday := some d }
  | none => .error "Invalid date format. Use DD.MM.YYYY"

/-! ### `AddressBook` -/

/-- The insertion-ordered `name → Record` mapping backing `AddressBook`. -/
abbrev Book := List (String × Record)

/-- `record.name.value in self.data`. -/
def hasName (b : Book) (n : String) : Bool :=
  b.any fun p => p.1 == n

/-- `AddressBook.add_record`: duplicate names are rejected before the
insertion `self.data[record.name.value] = record`. -/
def addRecord (b : Book) (r : Record) : Except String Book :=
  if hasName b r.name.value then .error "Record with this name already exists."
  else .ok (b ++ [(r.name.value, r)])

/-- `AddressBook.find`: `self.data.get(name)`. -/
def findRecord (b : Book) (n : String) : Option Record :=
  (b.find? fun p => p.1 == n).map (·.2)

/-- `AddressBook.delete`: remove the entry or raise `KeyError`. -/
def deleteRecord (b : Book) (n : String) : Except String Book :=
  if hasName b n then .ok (b.filter fun p => !(p.1 == n))
  else .error "Record not found."

/-- One iteration of `get_upcoming_birthdays` for one record.  `none` models
an uncaught `ValueError` from `date.replace`; `some none` means the record is
skipped; `some (some e)` appends the entry `e`. -/
def processRecord (today : PyDate) (days : Int) (r : Record) :
    Option (Option (String × String)) :=
  match r.birthday with
  | none => some none
  | some b =>
    match b.replaceYear today.year with
    | none => none
    | some bty =>
      match (if bty.lt today then bty.replaceYear (today.year + 1) else some bty) with
      | none => none
      | some proj =>
        if 0 ≤ (proj.toOrdinal : Int) - (today.toOrdinal : Int) ∧
            (proj.toOrdinal : Int) - (today.toOrdinal : Int) ≤ days then
          some (some (r.name.value,
            if proj.weekday ≥ 5 then renderDate (proj.addDays (7 - proj.weekday))
            else renderDate proj))
        else some none

/-- `AddressBook.get_upcoming_birthdays(days)`, with `date.today()` passed
explicitly; `none` models an uncaught `ValueError`. -/
def getUpcomingBirthdays (today : PyDate) (days : Int) : Book → Option (List (String × String))
  | [] => some []
  | p :: rest =>
    match processRecord today days p.2 with
    | none => none
    | some none => getUpcomingBirthdays today days rest
    | some (some e) => (getUpcomingBirthdays today days rest).map (e :: ·)

/-! ### State threading and reachable states

Python mutates records and the book in place; here each operation returns the
new state, and a raised exception leaves the state as it was (every
constructor in `main.py` raises before the mutation it guards). -/

/-- The state effect of `add_record`: on a duplicate name the exception
propagates before `self.data` is touched. -/
def addRecordState (b : Book) (r : Record) : Book :=
  match addRecord b r with
  | .ok b2 => b2
  | .error _ => b

/-- The state effect of `delete`: a missing name raises before deletion. -/
def deleteState (b : Book) (n : String) : Book :=
  match deleteRecord b n with
  | .ok b2 => b2
  | .error _ => b

/-- The record-level mutations the command layer can reach. -/
inductive RecordOp where
  | addPhone (s : String)
  | removePhone (s : String)
  | editPhone (o n : String)
  | addBirthday (s : String)

/-- The state effect of one record-level mutation: validation failures raise
before the record is touched, so the record survives unchanged. -/
def applyOp (op : RecordOp) (r : Record) : Record :=
  match op with
  | .addPhone s =>
    match r.addPhone s with
    | .ok r2 => r2
    | .error _ => r
  | .removePhone s => r.removePhone s
  | .editPhone o n =>
    match r.editPhone o n with
    | .ok r2 => r2
    | .error _ => r
  | .addBirthday s =>
    match r.addBirthday s with
    | .ok r2 => r2
    | .error _ => r

/-- Records the program can build: `Record(name)` followed by any sequence
of record-level mutations. -/
inductive ReachableRecord : Record → Prop where
  | new (s : String) (r : Record) : Record.ofName s = some r → ReachableRecord r
  | step (op : RecordOp) (r : Record) : ReachableRecord r → ReachableRecord (applyOp op r)

/-- The mutation `record = book.find(n); <op>(record)`: the entry stored
under key `n` is updated in place. -/
def modifyState (b : Book) (n : String) (op : RecordOp) : Book :=
  b.map fun p => if p.1 == n then (p.1, applyOp op p.2) else p

/-- Book states the program can reach from an empty `AddressBook` through
`add_record`, `delete`, and record mutation via `find`. -/
inductive Reachable : Book → Prop where
  | empty : Reachable []
  | add (b : Book) (r : Record) : Reachable b → ReachableRecord r →
      Reachable (addRecordState b r)
  | del (b : Book) (n : String) : Reachable b → Reachable (deleteState b n)
  | modify (b : Book) (n : String) (op : RecordOp) : Reachable b →
      Reachable (modifyState b n op)

/-! ### The claimed upcoming-birthday algorithm, transcribed from the spec

`specProjected`, `specInWindow` and `specCongrat` follow the words of the
claim — project onto the current year, next year if strictly before today;
keep the projection inside `[today, today + days]`; shift Saturday by 2 and
Sunday by 1 to the following Monday — to be compared with
`getUpcomingBirthdays` above. -/

/-- The claim's projected birthday of `b` relative to `today`. -/
def specProjected (b today : PyDate) : PyDate :=
  let c : PyDate := ⟨today.year, b.month, b.day⟩
  if c.lt today then ⟨today.year + 1, b.month, b.day⟩ else c

/-- The claim's inclusive window `[today, today + days]`. -/
def specInWindow (p today : PyDate) (days : Int) : Bool :=
  decide ((today.toOrdinal : Int) ≤ (p.toOrdinal : Int) ∧
    (p.toOrdinal : Int) ≤ (today.toOrdinal : Int) + days)

/-- The claim's congratulation date: Saturday (weekday 5) shifts forward by
2 days and Sunday (weekday 6) by 1 day, both to the following Monday;
any other day stays. -/
def specCongrat (p : PyDate) : PyDate :=
  if p.weekday = 5 then p.addDays 2
  else if p.weekday = 6 then p.addDays 1
  else p

/-- Whether the claim includes the record in the result. -/
def specIncluded (today : PyDate) (days : Int) (r : Record) : Bool :=
  match r.birthday with
  | none => false
  | some b => specInWindow (specProjected b today) today days

/-- The claim's result entry for an included record. -/
def specEntry (today : PyDate) (r : Record) : String × String :=
  match r.birthday with
  | none => (r.name.value, "")
  | some b => (r.name.value, renderDate (specCongrat (specProjected b today)))

/-! ### Concrete states used to evaluate the claims -/

/-- A book holding one February 29 birthday. -/
def feb29Book : Book :=
  [("Lena", ⟨⟨"Lena"⟩, [], some ⟨2024, 2, 29⟩⟩)]

/-- A contact that does hold the phone `0501234567`. -/
def aliceRecord : Record :=
  ⟨⟨"Alice"⟩, [⟨"0501234567"⟩], none⟩

/-- A contact with several phones, two of them equal. -/
def bobRecord : Record :=
  ⟨⟨"Bob"⟩, [⟨"0000000000"⟩, ⟨"0501234567"⟩, ⟨"0501234567"⟩], none⟩

/-- A one-contact book for the window/weekend scenarios. -/
def birthdayBook : Book :=
  [("Bob", ⟨⟨"Bob"⟩, [], some ⟨1990, 3, 12⟩⟩), ("Carl", ⟨⟨"Carl"⟩, [], some ⟨1985, 3, 16⟩⟩)]

/-! ### Helper lemmas -/

theorem phoneOfString_eq (s : String) :
    phoneOfString s = if pyStrIsDigit s = true ∧ s.length = 10 then some ⟨s⟩ else none := by
  unfold phoneOfString
  by_cases h1 : pyStrIsDigit s = true
  · by_cases h2 : s.length = 10 <;> simp [h1, h2]
  · simp [Bool.not_eq_true] at h1
    simp [h1]

theorem findRecord_append_last (b : Book) (n : String) (r : Record)
    (h : hasName b n = false) : findRecord (b ++ [(n, r)]) n = some r := by
  induction b with
  | nil => simp [findRecord]
  | cons p rest ih =>
    simp only [hasName, List.any_cons, Bool.or_eq_false_iff] at h
    have step := ih h.2
    simp only [findRecord, List.cons_append, List.find?_cons, h.1] at step ⊢
    exact step

/-! ### Claim C1 -/

/-- Claim C1: the claim requires that `get_upcoming_birthdays` must not crash
on a February 29 birthday when the projection year is not a leap year.  The
code violates it: `record.birthday.value.replace(year=today.year)` raises
`ValueError ("day is out of range for month")`, modelled by the whole call
evaluating to `none` on `feb29Book` with today = 2025-01-15. -/
theorem feb29_projection_crash :
    getUpcomingBirthdays ⟨2025, 1, 15⟩ 7 feb29Book = none := by
  rfl

/-! ### Claim C2 -/

/-- Claim C2: the claim requires a `ValidationError` when the new raw value
is invalid even though the old one matches a stored phone.  The code violates
it: `Phone(new_phone)` raises inside the same `try`, and the handler re-raises
every `ValueError` as `"Old phone number not found."`.  Here `"123"` is
invalid, `"0501234567"` is stored, and the reported error is still the
not-found message. -/
theorem edit_phone_masks_validation :
    phoneOfString "123" = none ∧
    aliceRecord.phones.map phoneStr = ["0501234567"] ∧
    aliceRecord.editPhone "0501234567" "123" =
      .error "Old phone number not found." := by
  exact ⟨rfl, rfl, rfl⟩

/-! ### Claim C4 -/

/-- Claim C4 counterexample: `'²'` is not a decimal digit, yet the ten-
character string of superscript twos passes `value.isdigit()` and
`len(value) == 10`, so `Phone` construction succeeds where the claim says it
must fail. -/
theorem phone_superscript_counterexample :
    Char.isDigit '²' = false ∧
    phoneOfString "²²²²²²²²²²" = some ⟨"²²²²²²²²²²"⟩ := by
  exact ⟨rfl, rfl⟩

/-- Claim C4 (amended): a string of exactly 10 decimal digits is accepted and
rendered back unchanged, and construction succeeds exactly when the string
has length 10 and passes Python's `str.isdigit`; every other string is
rejected.  (`str.isdigit` also accepts non-decimal Unicode digit characters
such as `'²'`, so "contains a character that is not a decimal digit" does not
always imply failure.) -/
theorem phone_field_validation (s : String) :
    (s.length = 10 ∧ s.data.all Char.isDigit = true →
      phoneOfString s = some ⟨s⟩ ∧ phoneStr ⟨s⟩ = s)
    ∧ (phoneOfString s = some ⟨s⟩ ↔ pyStrIsDigit s = true ∧ s.length = 10)
    ∧ (¬(pyStrIsDigit s = true ∧ s.length = 10) → phoneOfString s = none) := by
  have hchar : ∀ c : Char, c.isDigit = true → pyIsDigitChar c = true := by
    intro c hc
    simp [pyIsDigitChar, hc]
  refine ⟨?_, ?_, ?_⟩
  · rintro ⟨hlen, hall⟩
    have hdig : pyStrIsDigit s = true := by
      have hne : ¬(s = "") := by
        intro he
        rw [he] at hlen
        simp at hlen
      simp only [pyStrIsDigit, Bool.and_eq_true, Bool.not_eq_true', beq_eq_false_iff_ne,
        ne_eq, List.all_eq_true]
      exact ⟨hne, fun c hc => hchar c (by
        simp only [List.all_eq_true] at hall
        exact hall c hc)⟩
    rw [phoneOfString_eq]
    simp [hdig, hlen, phoneStr]
  · rw [phoneOfString_eq]
    by_cases h : pyStrIsDigit s = true ∧ s.length = 10 <;> simp [h]
  · intro h
    rw [phoneOfString_eq]
    simp [h]

/-- Claim C4 witness: the amended theorem applied to the valid phone
`"0501234567"` and to the rejected string `"12345"`. -/
theorem phone_field_validation_witness :
    (phoneOfString "0501234567" = some ⟨"0501234567"⟩ ∧
      phoneStr ⟨"0501234567"⟩ = "0501234567") ∧
    phoneOfString "12345" = none := by
  exact ⟨(phone_field_validation "0501234567").1 ⟨rfl, rfl⟩,
    (phone_field_validation "12345").2.2 (by decide)⟩

/-! ### Claim C7 -/

/-- Claim C7 counterexample: a `Name` and a `Phone` holding the same string
compare equal under `Field.__eq__`, though the claim says fields of different
concrete types are never equal. -/
theorem field_cross_type_equality :
    fieldEq (PyField.name "0123456789") (PyField.phone "0123456789") = true := by
  rfl

/-- Claim C7 (amended): `Field.__eq__` tests only that the other operand is a
`Field` and that the underlying values are equal — the concrete subclass is
not compared.  So equality holds exactly on equal underlying values: a `Name`
and a `Phone` with the same string are equal, while `Name`/`Phone` never
equal a `Birthday` because a string never equals a date. -/
theorem field_eq_value_only :
    (∀ a b : PyField, fieldEq a b = true ↔ a.value = b.value) ∧
    (∀ s : String, fieldEq (PyField.name s) (PyField.phone s) = true) ∧
    (∀ (s : String) (d : PyDate),
      fieldEq (PyField.name s) (PyField.birthday d) = false ∧
      fieldEq (PyField.phone s) (PyField.birthday d) = false) := by
  refine ⟨fun a b => ?_, fun s => ?_, fun s d => ?_⟩
  · simp [fieldEq]
  · simp [fieldEq, PyField.value]
  · simp [fieldEq, PyField.value]

/-! ### Claim C6 -/

/-- Claim C6: `add_record` on a fresh name appends the entry and `find` then
returns the very record added; `add_record` on a present name raises
`"Record with this name already exists."` before touching `self.data`, so the
book — and with it the existing entry — is unchanged. -/
theorem add_record_then_find (b : Book) (r : Record) :
    (hasName b r.name.value = false →
      addRecord b r = .ok (b ++ [(r.name.value, r)]) ∧
      findRecord (b ++ [(r.name.value, r)]) r.name.value = some r)
    ∧ (hasName b r.name.value = true →
      addRecord b r = .error "Record with this name already exists." ∧
      addRecordState b r = b) := by
  constructor
  · intro h
    refine ⟨?_, findRecord_append_last b r.name.value r h⟩
    simp [addRecord, h]
  · intro h
    have he : addRecord b r = .error "Record with this name already exists." := by
      simp [addRecord, h]
    exact ⟨he, by simp [addRecordState, he]⟩


/-! ### Inversion lemmas for the fallible record operations -/

theorem addPhone_ok (r : Record) (s : String) (r2 : Record)
    (h : r.addPhone s = .ok r2) :
    ∃ p, phoneOfString s = some p ∧ r2 = { r with phones := r.phones ++ [p] } := by
  unfold Record.addPhone at h
  split at h
  · cases h
    next p hp => exact ⟨p, hp, rfl⟩
  · cases h

theorem editPhone_ok (r : Record) (o n : String) (r2 : Record)
    (h : r.editPhone o n = .ok r2) :
    ∃ po i pn, phoneOfString o = some po ∧
      r.phones.findIdx? (fun p => p.value == po.value) = some i ∧
      phoneOfString n = some pn ∧ r2 = { r with phones := r.phones.set i pn } := by
  unfold Record.editPhone at h
  split at h
  · cases h
  · next po hpo =>
    split at h
    · cases h
    · next i hi =>
      split at h
      · cases h
      · next pn hpn =>
        cases h
        exact ⟨po, i, pn, hpo, hi, hpn, rfl⟩

theorem addBirthday_ok (r : Record) (s : String) (r2 : Record)
    (h : r.addBirthday s = .ok r2) :
    ∃ d, birthdayOfString s = some d ∧ r2 = { r with birthday := some d } := by
  unfold Record.addBirthday at h
  split at h
  · cases h
    next d hd => exact ⟨d, hd, rfl⟩
  · cases h

/-! ### Claim C8 -/

/-- Claim C8: with valid old and new raw values, `edit_phone` replaces
exactly the first entry whose value equals the old one — `List.set` at the
first matching index keeps every other position untouched — and when no
entry matches, it raises and the record (hence its phone list) survives
unchanged, which the `Except.error` result models. -/
theorem edit_phone_first_match (r : Record) (o n : String)
    (ho : phoneOfString o = some ⟨o⟩) (hn : phoneOfString n = some ⟨n⟩) :
    ((∃ p ∈ r.phones, p.value = o) →
      ∃ i, i < r.phones.length ∧
        r.phones[i]?.map Phone.value = some o ∧
        (∀ j, j < i → r.phones[j]?.map Phone.value ≠ some o) ∧
        r.editPhone o n = .ok { r with phones := r.phones.set i ⟨n⟩ })
    ∧ ((∀ p ∈ r.phones, p.value ≠ o) →
      r.editPhone o n = .error "Old phone number not found.") := by
  constructor
  · rintro ⟨p, hp, hpv⟩
    have hex : ∃ x, x ∈ r.phones ∧ (fun q => q.value == o) x = true :=
      ⟨p, hp, by simp [hpv]⟩
    have hfind := List.findIdx?_eq_some_of_exists hex
    set i := r.phones.findIdx (fun q => q.value == o) with hi
    have hfind2 := hfind
    rw [List.findIdx?_eq_some_iff_getElem] at hfind2
    obtain ⟨hlt, hpi, hprev⟩ := hfind2
    refine ⟨i, hlt, ?_, ?_, ?_⟩
    · rw [List.getElem?_eq_getElem hlt]
      simpa using hpi
    · intro j hj
      rw [List.getElem?_eq_getElem (Nat.lt_trans hj hlt)]
      have := hprev j hj
      simpa using this
    · unfold Record.editPhone
      rw [ho]
      simp only [hfind, hn]
  · intro hnone
    have hnf : r.phones.findIdx? (fun p => p.value == o) = none :=
      List.findIdx?_eq_none_iff.mpr fun x hx => by simp [hnone x hx]
    unfold Record.editPhone
    rw [ho]
    simp only [hnf]

/-- Claim C8 witness: on `bobRecord`, which stores `0501234567` twice at
positions 1 and 2, editing replaces the first of them only. -/
theorem edit_phone_first_match_witness :
    ∃ i, i < bobRecord.phones.length ∧
      bobRecord.phones[i]?.map Phone.value = some "0501234567" ∧
      (∀ j, j < i → bobRecord.phones[j]?.map Phone.value ≠ some "0501234567") ∧
      bobRecord.editPhone "0501234567" "9999999999" =
        .ok { bobRecord with phones := bobRecord.phones.set i ⟨"9999999999"⟩ } :=
  (edit_phone_first_match bobRecord "0501234567" "9999999999" rfl rfl).1
    ⟨⟨"0501234567"⟩, by decide, rfl⟩

/-! ### Claim C9 -/

theorem applyOp_name (op : RecordOp) (r : Record) : (applyOp op r).name = r.name := by
  cases op with
  | addPhone s =>
    cases he : r.addPhone s with
    | ok r2 =>
      obtain ⟨p, _, rfl⟩ := addPhone_ok r s r2 he
      simp [applyOp, he]
    | error e => simp [applyOp, he]
  | removePhone s => rfl
  | editPhone o n =>
    cases he : r.editPhone o n with
    | ok r2 =>
      obtain ⟨po, i, pn, _, _, _, rfl⟩ := editPhone_ok r o n r2 he
      simp [applyOp, he]
    | error e => simp [applyOp, he]
  | addBirthday s =>
    cases he : r.addBirthday s with
    | ok r2 =>
      obtain ⟨d, _, rfl⟩ := addBirthday_ok r s r2 he
      simp [applyOp, he]
    | error e => simp [applyOp, he]

/-- Claim C9: in every reachable book state, each key of the mapping equals
the stored record's name — `add_record` inserts under `record.name.value`,
and no operation renames a record or rebinds a key. -/
theorem book_keys_equal_names (b : Book) (h : Reachable b) :
    ∀ p ∈ b, p.1 = p.2.name.value := by
  induction h with
  | empty => simp
  | add b r hb hr ih =>
    intro p hp
    unfold addRecordState at hp
    cases hadd : addRecord b r with
    | ok b2 =>
      rw [hadd] at hp
      unfold addRecord at hadd
      split at hadd
      · cases hadd
      · cases hadd
        rcases List.mem_append.mp hp with hin | hnew
        · exact ih p hin
        · rcases List.mem_singleton.mp hnew with rfl
          rfl
    | error e =>
      rw [hadd] at hp
      exact ih p hp
  | del b nm hb ih =>
    intro p hp
    unfold deleteState at hp
    cases hdel : deleteRecord b nm with
    | ok b2 =>
      rw [hdel] at hp
      unfold deleteRecord at hdel
      split at hdel
      · cases hdel
        exact ih p (List.mem_of_mem_filter hp)
      · cases hdel
    | error e =>
      rw [hdel] at hp
      exact ih p hp
  | modify b nm op hb ih =>
    intro p hp
    unfold modifyState at hp
    rcases List.mem_map.mp hp with ⟨q, hq, he⟩
    by_cases hqn : q.1 == nm
    · rw [if_pos hqn] at he
      cases he
      have := ih q hq
      simpa [applyOp_name] using this
    · rw [if_neg hqn] at he
      cases he
      exact ih _ hq

/-- Claim C9 witness: the invariant read off the reachable one-entry book
built by `add_record` on a fresh `Record("Alice")`. -/
theorem book_keys_equal_names_witness :
    ("Alice", (⟨⟨"Alice"⟩, [], none⟩ : Record)).1 =
      (⟨⟨"Alice"⟩, [], none⟩ : Record).name.value := by
  have hr : ReachableRecord ⟨⟨"Alice"⟩, [], none⟩ :=
    ReachableRecord.new "Alice" _ (by decide)
  have hb : Reachable (addRecordState [] ⟨⟨"Alice"⟩, [], none⟩) :=
    Reachable.add [] _ Reachable.empty hr
  exact book_keys_equal_names _ hb _ (by decide)

/-! ### Claim C10 -/

theorem phoneOfString_props (s : String) (p : Phone) (h : phoneOfString s = some p) :
    pyStrIsDigit p.value = true ∧ p.value.length = 10 := by
  rw [phoneOfString_eq] at h
  split at h
  · cases h
    assumption
  · cases h

theorem applyOp_phones_valid (op : RecordOp) (r : Record)
    (hv : ∀ ph ∈ r.phones, pyStrIsDigit ph.value = true ∧ ph.value.length = 10) :
    ∀ ph ∈ (applyOp op r).phones, pyStrIsDigit ph.value = true ∧ ph.value.length = 10 := by
  cases op with
  | addPhone s =>
    cases he : r.addPhone s with
    | ok r2 =>
      obtain ⟨p, hp, rfl⟩ := addPhone_ok r s r2 he
      simp only [applyOp, he]
      intro ph hph
      rcases List.mem_append.mp hph with hin | hone
      · exact hv ph hin
      · rcases List.mem_singleton.mp hone with rfl
        exact phoneOfString_props s ph hp
    | error e =>
      simpa [applyOp, he] using hv
  | removePhone s =>
    intro ph hph
    exact hv ph (List.mem_of_mem_filter hph)
  | editPhone o n =>
    cases he : r.editPhone o n with
    | ok r2 =>
      obtain ⟨po, i, pn, hpo, hi, hpn, rfl⟩ := editPhone_ok r o n r2 he
      simp only [applyOp, he]
      intro ph hph
      rcases List.mem_or_eq_of_mem_set hph with hin | rfl
      · exact hv ph hin
      · exact phoneOfString_props n ph hpn
    | error e =>
      simpa [applyOp, he] using hv
  | addBirthday s =>
    cases he : r.addBirthday s with
    | ok r2 =>
      obtain ⟨d, hd, rfl⟩ := addBirthday_ok r s r2 he
      simpa [applyOp, he] using hv
    | error e =>
      simpa [applyOp, he] using hv

theorem reachableRecord_phones_valid (r : Record) (h : ReachableRecord r) :
    ∀ ph ∈ r.phones, pyStrIsDigit ph.value = true ∧ ph.value.length = 10 := by
  induction h with
  | new s r hr =>
    unfold Record.ofName at hr
    cases hn : nameOfString s <;> rw [hn] at hr
    · cases hr
    · cases hr
      simp
  | step op r hr ih => exact applyOp_phones_valid op r ih

/-- Claim C10: in every reachable book, every phone entry of every record
was produced by the validating `Phone` constructor, so its stored value
passes `isdigit` and has length 10; `add_phone`, `remove_phone` and
`edit_phone` all preserve this. -/
theorem book_phones_validated (b : Book) (h : Reachable b) :
    ∀ p ∈ b, ∀ ph ∈ p.2.phones, pyStrIsDigit ph.value = true ∧ ph.value.length = 10 := by
  induction h with
  | empty => simp
  | add b r hb hr ih =>
    intro p hp
    unfold addRecordState at hp
    cases hadd : addRecord b r with
    | ok b2 =>
      rw [hadd] at hp
      unfold addRecord at hadd
      split at hadd
      · cases hadd
      · cases hadd
        rcases List.mem_append.mp hp with hin | hnew
        · exact ih p hin
        · rcases List.mem_singleton.mp hnew with rfl
          exact reachableRecord_phones_valid r hr
    | error e =>
      rw [hadd] at hp
      exact ih p hp
  | del b nm hb ih =>
    intro p hp
    unfold deleteState at hp
    cases hdel : deleteRecord b nm with
    | ok b2 =>
      rw [hdel] at hp
      unfold deleteRecord at hdel
      split at hdel
      · cases hdel
        exact ih p (List.mem_of_mem_filter hp)
      · cases hdel
    | error e =>
      rw [hdel] at hp
      exact ih p hp
  | modify b nm op hb ih =>
    intro p hp
    unfold modifyState at hp
    rcases List.mem_map.mp hp with ⟨q, hq, he⟩
    by_cases hqn : q.1 == nm
    · rw [if_pos hqn] at he
      cases he
      exact applyOp_phones_valid op q.2 (ih q hq)
    · rw [if_neg hqn] at he
      cases he
      exact ih _ hq

/-- Claim C10 witness: the invariant read off the reachable book built by
`add_record` on `Record("Alice")` followed by `add_phone("0501234567")`. -/
theorem book_phones_validated_witness :
    pyStrIsDigit (Phone.mk "0501234567").value = true ∧
      (Phone.mk "0501234567").value.length = 10 := by
  have hb : Reachable (modifyState (addRecordState [] ⟨⟨"Alice"⟩, [], none⟩)
      "Alice" (.addPhone "0501234567")) :=
    Reachable.modify _ _ _
      (Reachable.add [] _ Reachable.empty (ReachableRecord.new "Alice" _ (by decide)))
  exact book_phones_validated _ hb ("Alice", ⟨⟨"Alice"⟩, [⟨"0501234567"⟩], none⟩)
    (by decide) ⟨"0501234567"⟩ (by decide)

/-! ### Claim C3 -/

theorem isDig_cases (c : Char) (h : isDig c = true) :
    c = '0' ∨ c = '1' ∨ c = '2' ∨ c = '3' ∨ c = '4' ∨
    c = '5' ∨ c = '6' ∨ c = '7' ∨ c = '8' ∨ c = '9' := by
  simpa [isDig, or_assoc] using h

theorem isDig_toNat_le (c : Char) (h : isDig c = true) :
    48 ≤ c.toNat ∧ c.toNat ≤ 57 := by
  rcases isDig_cases c h with rfl | rfl | rfl | rfl | rfl | rfl | rfl | rfl | rfl | rfl <;>
    exact ⟨by decide, by decide⟩

theorem isDig_ne_dot (c : Char) (h : isDig c = true) : ¬(c = '.') := by
  rcases isDig_cases c h with rfl | rfl | rfl | rfl | rfl | rfl | rfl | rfl | rfl | rfl <;>
    decide

theorem digitChar10_recover (c : Char) (h : isDig c = true) :
    digitChar10 (c.toNat - 48) = c := by
  rcases isDig_cases c h with rfl | rfl | rfl | rfl | rfl | rfl | rfl | rfl | rfl | rfl <;>
    rfl

theorem digitChar10_mod (x y : Nat) (h : x % 10 = y % 10) :
    digitChar10 x = digitChar10 y := by
  unfold digitChar10
  rw [h]

theorem digitsVal_two (a b : Char) :
    digitsVal [a, b] = (a.toNat - 48) * 10 + (b.toNat - 48) := by
  simp [digitsVal]

theorem digitsVal_four (a b c d : Char) :
    digitsVal [a, b, c, d] =
      (a.toNat - 48) * 1000 + (b.toNat - 48) * 100 + (c.toNat - 48) * 10 + (d.toNat - 48) := by
  simp [digitsVal]
  ring

theorem pad2_digits (a b : Char) (ha : isDig a = true) (hb : isDig b = true) :
    pad2 (digitsVal [a, b]) = String.mk [a, b] := by
  obtain ⟨ha1, ha2⟩ := isDig_toNat_le a ha
  obtain ⟨hb1, hb2⟩ := isDig_toNat_le b hb
  unfold pad2
  rw [digitsVal_two]
  have h1 : ((a.toNat - 48) * 10 + (b.toNat - 48)) / 10 = a.toNat - 48 := by omega
  have h2 : ((a.toNat - 48) * 10 + (b.toNat - 48)) % 10 = (b.toNat - 48) % 10 := by omega
  rw [h1, digitChar10_mod _ _ h2, digitChar10_recover a ha, digitChar10_recover b hb]

theorem pad4_digits (a b c d : Char)
    (ha : isDig a = true) (hb : isDig b = true)
    (hc : isDig c = true) (hd : isDig d = true) :
    pad4 (digitsVal [a, b, c, d]) = String.mk [a, b, c, d] := by
  obtain ⟨ha1, ha2⟩ := isDig_toNat_le a ha
  obtain ⟨hb1, hb2⟩ := isDig_toNat_le b hb
  obtain ⟨hc1, hc2⟩ := isDig_toNat_le c hc
  obtain ⟨hd1, hd2⟩ := isDig_toNat_le d hd
  unfold pad4
  rw [digitsVal_four]
  have h1 : ((a.toNat - 48) * 1000 + (b.toNat - 48) * 100 + (c.toNat - 48) * 10 +
      (d.toNat - 48)) / 1000 = a.toNat - 48 := by omega
  have h2 : (((a.toNat - 48) * 1000 + (b.toNat - 48) * 100 + (c.toNat - 48) * 10 +
      (d.toNat - 48)) / 100) % 10 = (b.toNat - 48) % 10 := by omega
  have h3 : (((a.toNat - 48) * 1000 + (b.toNat - 48) * 100 + (c.toNat - 48) * 10 +
      (d.toNat - 48)) / 10) % 10 = (c.toNat - 48) % 10 := by omega
  have h4 : ((a.toNat - 48) * 1000 + (b.toNat - 48) * 100 + (c.toNat - 48) * 10 +
      (d.toNat - 48)) % 10 = (d.toNat - 48) % 10 := by omega
  rw [h1, digitChar10_mod _ _ h2, digitChar10_mod _ _ h3, digitChar10_mod _ _ h4,
    digitChar10_recover a ha, digitChar10_recover b hb,
    digitChar10_recover c hc, digitChar10_recover d hd]

theorem daysInMonth_le_31 (y m : Nat) : daysInMonth y m ≤ 31 := by
  unfold daysInMonth
  split <;> split <;> omega

theorem splitDots_format (d1 d2 m1 m2 y1 y2 y3 y4 : Char)
    (h1 : isDig d1 = true) (h2 : isDig d2 = true)
    (h3 : isDig m1 = true) (h4 : isDig m2 = true)
    (h5 : isDig y1 = true) (h6 : isDig y2 = true)
    (h7 : isDig y3 = true) (h8 : isDig y4 = true) :
    splitDots [d1, d2, '.', m1, m2, '.', y1, y2, y3, y4] =
      [[d1, d2], [m1, m2], [y1, y2, y3, y4]] := by
  simp [splitDots, isDig_ne_dot _ h1, isDig_ne_dot _ h2, isDig_ne_dot _ h3,
    isDig_ne_dot _ h4, isDig_ne_dot _ h5, isDig_ne_dot _ h6, isDig_ne_dot _ h7,
    isDig_ne_dot _ h8]

/-- Claim C3: for every string of shape `DD.MM.YYYY` — two digit characters,
a dot, two digit characters, a dot, four digit characters — whose numeric
values form a valid calendar date, `Birthday` construction succeeds with
exactly that date and `strftime("%d.%m.%Y")` renders the field back to the
original string. -/
theorem birthday_roundtrip (s : String) (d1 d2 m1 m2 y1 y2 y3 y4 : Char)
    (hs : s.data = [d1, d2, '.', m1, m2, '.', y1, y2, y3, y4])
    (hdig : [d1, d2, m1, m2, y1, y2, y3, y4].all isDig = true)
    (hval : (PyDate.mk (digitsVal [y1, y2, y3, y4]) (digitsVal [m1, m2])
      (digitsVal [d1, d2])).valid = true) :
    birthdayOfString s =
      some ⟨digitsVal [y1, y2, y3, y4], digitsVal [m1, m2], digitsVal [d1, d2]⟩
    ∧ birthdayStr ⟨digitsVal [y1, y2, y3, y4], digitsVal [m1, m2],
      digitsVal [d1, d2]⟩ = s := by
  simp only [List.all_cons, List.all_nil, Bool.and_eq_true, Bool.and_true] at hdig
  obtain ⟨h1, h2, h3, h4, h5, h6, h7, h8⟩ := hdig
  have hsp := splitDots_format d1 d2 m1 m2 y1 y2 y3 y4 h1 h2 h3 h4 h5 h6 h7 h8
  have hvparts := hval
  simp only [PyDate.valid, Bool.and_eq_true, decide_eq_true_eq] at hvparts
  obtain ⟨⟨⟨⟨⟨hy1, hy2⟩, hm1⟩, hm2⟩, hd1⟩, hd2⟩ := hvparts
  have hday : dayPat [d1, d2] = true := by
    have hv1 : decide (1 ≤ digitsVal [d1, d2]) = true := by
      simp only [decide_eq_true_eq]
      exact hd1
    have hv2 : decide (digitsVal [d1, d2] ≤ 31) = true := by
      simp only [decide_eq_true_eq]
      exact le_trans hd2 (daysInMonth_le_31 _ _)
    simp [dayPat, h1, h2, hv1, hv2]
  have hmonth : monthPat [m1, m2] = true := by
    have hv1 : decide (1 ≤ digitsVal [m1, m2]) = true := by
      simp only [decide_eq_true_eq]
      exact hm1
    have hv2 : decide (digitsVal [m1, m2] ≤ 12) = true := by
      simp only [decide_eq_true_eq]
      exact hm2
    simp [monthPat, h3, h4, hv1, hv2]
  have hyear : yearPat [y1, y2, y3, y4] = true := by
    simp [yearPat, h5, h6, h7, h8]
  constructor
  · unfold birthdayOfString parseDate
    rw [hs, hsp]
    simp only [hday, hmonth, hyear, Bool.and_self, Bool.and_true, if_true, hval]
  · refine String.ext ?_
    unfold birthdayStr renderDate
    rw [pad2_digits d1 d2 h1 h2, pad2_digits m1 m2 h3 h4,
      pad4_digits y1 y2 y3 y4 h5 h6 h7 h8, hs]
    simp [String.data_append]

/-- Claim C3 witness: the round trip evaluated on `"29.02.2024"`. -/
theorem birthday_roundtrip_witness :
    birthdayOfString "29.02.2024" = some ⟨2024, 2, 29⟩ ∧
      birthdayStr ⟨2024, 2, 29⟩ = "29.02.2024" :=
  birthday_roundtrip "29.02.2024" '2' '9' '0' '2' '2' '0' '2' '4'
    (by decide) (by decide) (by decide)

/-! ### Claim C5 -/

theorem daysInMonth_feb_le (y : Nat) : daysInMonth y 2 ≤ 29 := by
  unfold daysInMonth
  split <;> split <;> omega

theorem daysInMonth_feb_ge (y : Nat) : 28 ≤ daysInMonth y 2 := by
  unfold daysInMonth
  split <;> split <;> omega

theorem daysInMonth_year_free (y y2 m : Nat) (hm : ¬(m = 2)) :
    daysInMonth y m = daysInMonth y2 m := by
  unfold daysInMonth
  simp [hm]

theorem project_valid (bd : PyDate) (y : Nat) (hy1 : 1 ≤ y) (hy2 : y ≤ 9999)
    (hv : bd.valid = true) (hf : ¬(bd.month = 2 ∧ bd.day = 29)) :
    (PyDate.mk y bd.month bd.day).valid = true := by
  simp only [PyDate.valid, Bool.and_eq_true, decide_eq_true_eq] at hv ⊢
  obtain ⟨⟨⟨⟨⟨hb1, hb2⟩, hm1⟩, hm2⟩, hd1⟩, hd2⟩ := hv
  refine ⟨⟨⟨⟨⟨hy1, hy2⟩, hm1⟩, hm2⟩, hd1⟩, ?_⟩
  by_cases hm : bd.month = 2
  · rw [hm]
    rw [hm] at hd2
    have hle := daysInMonth_feb_le bd.year
    have hge := daysInMonth_feb_ge y
    have : ¬(bd.day = 29) := fun h29 => hf ⟨hm, h29⟩
    omega
  · rw [daysInMonth_year_free y bd.year bd.month hm]
    exact hd2

theorem replaceYear_project (bd : PyDate) (y : Nat) (hy1 : 1 ≤ y) (hy2 : y ≤ 9999)
    (hv : bd.valid = true) (hf : ¬(bd.month = 2 ∧ bd.day = 29)) :
    bd.replaceYear y = some ⟨y, bd.month, bd.day⟩ := by
  unfold PyDate.replaceYear
  simp [project_valid bd y hy1 hy2 hv hf]

theorem congrat_shift (proj : PyDate) :
    (if proj.weekday ≥ 5 then renderDate (proj.addDays (7 - proj.weekday))
      else renderDate proj) = renderDate (specCongrat proj) := by
  have hw : proj.weekday < 7 := by
    unfold PyDate.weekday
    omega
  unfold specCongrat
  by_cases h5 : proj.weekday = 5
  · simp [h5]
  · by_cases h6 : proj.weekday = 6
    · simp [h6]
    · have hlt : ¬(proj.weekday ≥ 5) := by omega
      simp [hlt, h5, h6]

theorem window_spec (proj today : PyDate) (days : Int) :
    (0 ≤ (proj.toOrdinal : Int) - (today.toOrdinal : Int) ∧
      (proj.toOrdinal : Int) - (today.toOrdinal : Int) ≤ days) ↔
    specInWindow proj today days = true := by
  unfold specInWindow
  simp only [decide_eq_true_eq]
  omega

theorem processRecord_spec (today : PyDate) (days : Int) (r : Record)
    (ht : today.valid = true) (hcap : today.year ≤ 9998)
    (hr : ∀ d, r.birthday = some d → d.valid = true ∧ ¬(d.month = 2 ∧ d.day = 29)) :
    processRecord today days r =
      some (if specIncluded today days r then some (specEntry today r) else none) := by
  unfold processRecord specIncluded specEntry specProjected
  cases hbd : r.birthday with
  | none => rfl
  | some bd =>
    obtain ⟨hv, hf⟩ := hr bd hbd
    have hty : 1 ≤ today.year ∧ today.year ≤ 9999 := by
      simp only [PyDate.valid, Bool.and_eq_true, decide_eq_true_eq] at ht
      exact ⟨ht.1.1.1.1.1, ht.1.1.1.1.2⟩
    have hrep1 : bd.replaceYear today.year = some ⟨today.year, bd.month, bd.day⟩ :=
      replaceYear_project bd today.year hty.1 hty.2 hv hf
    have hrep2 : (PyDate.mk today.year bd.month bd.day).replaceYear (today.year + 1) =
        some ⟨today.year + 1, bd.month, bd.day⟩ := by
      unfold PyDate.replaceYear
      simp [project_valid bd (today.year + 1) (by omega) (by omega) hv hf]
    simp only [hrep1]
    by_cases hlt : PyDate.lt ⟨today.year, bd.month, bd.day⟩ today = true
    · simp only [hlt, if_true, hrep2]
      by_cases hwin : 0 ≤ ((PyDate.mk (today.year + 1) bd.month bd.day).toOrdinal : Int) -
          (today.toOrdinal : Int) ∧
          ((PyDate.mk (today.year + 1) bd.month bd.day).toOrdinal : Int) -
            (today.toOrdinal : Int) ≤ days
      · have hw := (window_spec _ today days).mp hwin
        simp [hwin, hw, congrat_shift]
      · have hw : specInWindow ⟨today.year + 1, bd.month, bd.day⟩ today days = false := by
          rcases hb2 : specInWindow ⟨today.year + 1, bd.month, bd.day⟩ today days with _ | _
          · rfl
          · exact absurd ((window_spec _ today days).mpr hb2) hwin
        simp only [hw, Bool.false_eq_true, if_false]
        simp [hwin]
        omega
    · have hlt2 : PyDate.lt ⟨today.year, bd.month, bd.day⟩ today = false :=
        Bool.not_eq_true _ ▸ by simpa using hlt
      simp only [hlt2, Bool.false_eq_true, if_false]
      by_cases hwin : 0 ≤ ((PyDate.mk today.year bd.month bd.day).toOrdinal : Int) -
          (today.toOrdinal : Int) ∧
          ((PyDate.mk today.year bd.month bd.day).toOrdinal : Int) -
            (today.toOrdinal : Int) ≤ days
      · have hw := (window_spec _ today days).mp hwin
        simp [hwin, hw, congrat_shift]
      · have hw : specInWindow ⟨today.year, bd.month, bd.day⟩ today days = false := by
          rcases hb2 : specInWindow ⟨today.year, bd.month, bd.day⟩ today days with _ | _
          · rfl
          · exact absurd ((window_spec _ today days).mpr hb2) hwin
        simp only [hw, Bool.false_eq_true, if_false]
        simp [hwin]
        omega

/-- Claim C5: with a well-formed `today` (any real calendar date below the
`datetime` year cap) and no February 29 birthday in the book — the case the
code crashes on, settled by claim C1 — `get_upcoming_birthdays` returns
exactly the contacts whose projected birthday (current year, or next year if
the projection is strictly before today) lies in the inclusive window
`[today, today + days]`, each paired with the rendered congratulation date:
the projection itself, shifted by 2 days for a Saturday (weekday 5) and by
1 day for a Sunday (weekday 6) onto the following Monday. -/
theorem get_upcoming_birthdays_correct (b : Book) (today : PyDate) (days : Int)
    (ht : today.valid = true) (hcap : today.year ≤ 9998)
    (hb : ∀ p ∈ b, ∀ d, p.2.birthday = some d →
      d.valid = true ∧ ¬(d.month = 2 ∧ d.day = 29)) :
    getUpcomingBirthdays today days b =
      some (((b.map Prod.snd).filter (specIncluded today days)).map (specEntry today)) := by
  induction b with
  | nil => rfl
  | cons p rest ih =>
    have hproc := processRecord_spec today days p.2 ht hcap
      (hb p (List.mem_cons_self p rest))
    have htail := ih fun q hq => hb q (List.mem_cons_of_mem p hq)
    by_cases hinc : specIncluded today days p.2 = true
    · simp only [getUpcomingBirthdays, hproc, hinc, if_true, List.map_cons,
        List.filter_cons, htail, Option.map_some]
      simp [hinc]
    · have hinc2 : specIncluded today days p.2 = false := by
        rcases hb2 : specIncluded today days p.2 with _ | _
        · rfl
        · exact absurd hb2 hinc
      simp only [getUpcomingBirthdays, hproc, hinc2, Bool.false_eq_true, if_false,
        List.map_cons, List.filter_cons, htail]

/-- Claim C5 witness: the spec scenarios — today is Sunday 2024-03-10, Bob's
birthday projects to Tuesday 2024-03-12 (no shift), Carl's to Saturday
2024-03-16 (shifted to Monday 2024-03-18). -/
theorem get_upcoming_birthdays_correct_witness :
    getUpcomingBirthdays ⟨2024, 3, 10⟩ 7 birthdayBook =
      some [("Bob", "12.03.2024"), ("Carl", "18.03.2024")] := by
  have h := get_upcoming_birthdays_correct birthdayBook ⟨2024, 3, 10⟩ 7
    (by decide) (by decide) (by
      intro p hp d hd
      simp only [birthdayBook, List.mem_cons, List.not_mem_nil, or_false] at hp
      rcases hp with rfl | rfl <;> cases hd <;> exact ⟨by decide, by decide⟩)
  rw [h]
  rfl
